import Mathlib

/-!
Verification of the agent-builder provider compositor and output coercion
engine against the repository sources.

The embedding follows the scoped `Agent` implementation (`Agent.executeProviders`,
`Agent.prompt`, `Agent.system`, `Agent.addProvider`, `Agent.setProvider`) and its
providers (`promptProvider`, `promptSuffixProvider`, ...), together with the
output-processing pipeline `processOutput` and the default `replyAction`.

Conventions of the shallow embedding:
* JavaScript numbers used as provider order ranks are embedded as `JNum`:
  either a finite integer rank or one of the two infinite sentinels
  (`Number.NEGATIVE_INFINITY` / `Number.POSITIVE_INFINITY`) that the prompt
  providers use.  The sort comparator `(a, b) => a.order - b.order` is embedded
  as the three-way comparison `ordCmp` (`NaN`, arising for two equal infinite
  ranks, compares as `0`, exactly as the ECMAScript sort treats a `NaN`
  comparator result).
* `Array.prototype.sort`, which ECMAScript requires to be stable and sorted
  w.r.t. a consistent comparator, is embedded as `List.insertionSort`, which is
  stable and sorted w.r.t. the same preorder; the result of a stable sorted
  permutation is unique, so this is the function the source computes.
* A provider's async producer is embedded as `exec : Option String`, where
  `none` models a rejected promise.
* A JavaScript `Map` is embedded as an insertion-ordered association list;
  `Map.prototype.set` on an existing key updates the value in place (keeping
  the original insertion position), which `mapSet` reproduces.
* Fallible operations (`throw`) are embedded as `Except String` with the
  thrown message.
-/

/-- A JavaScript number as used for provider `order` ranks: a finite rank or one
of the two infinite sentinels. -/
inductive JNum where
  | negInf : JNum
  | fin (v : Int) : JNum
  | posInf : JNum
deriving DecidableEq, Repr

/-- Sign of the JavaScript subtraction `a - b` used as the sort comparator in
`Agent.executeProviders` (`filteredProviders.sort((a, b) => a.order - b.order)`).
Subtracting two equal infinities yields `NaN`, which the ECMAScript sort
specification treats as `+0`, i.e. as a tie. -/
def ordCmp : JNum → JNum → Ordering
  | JNum.negInf, JNum.negInf => Ordering.eq
  | JNum.negInf, _ => Ordering.lt
  | JNum.posInf, JNum.posInf => Ordering.eq
  | JNum.posInf, _ => Ordering.gt
  | JNum.fin _, JNum.negInf => Ordering.gt
  | JNum.fin _, JNum.posInf => Ordering.lt
  | JNum.fin a, JNum.fin b =>
    if a < b then Ordering.lt else if b < a then Ordering.gt else Ordering.eq

/-- Provider role (`ProviderType` in `types/provider.ts`). -/
inductive PType where
  | system : PType
  | prompt : PType
deriving DecidableEq, Repr

/-- A content provider (the `Provider` record type used by the scoped `Agent`):
a key, a role, a numeric order rank, an optional title, an optional action
scope, and an async producer (`none` models a producer whose promise rejects). -/
structure Provider where
  key : String
  type : PType
  order : JNum
  title : Option String := none
  actionKey : Option String := none
  exec : Option String
deriving DecidableEq, Repr

/-- `AgentSettings` (defaults `endPromptString = "# OUTPUT"`,
`model = "gemini-2.0-flash"`, `debug = false`). -/
structure AgentSettings where
  endPromptString : String
  model : String
  debug : Bool
deriving DecidableEq, Repr

def defaultSettings : AgentSettings :=
  { endPromptString := "# OUTPUT", model := "gemini-2.0-flash", debug := false }

/-- `providers.has(k)` on the insertion-ordered map. -/
def mapHas (m : List (String × Provider)) (k : String) : Bool :=
  m.any (fun e => e.1 == k)

/-- `providers.set(k, v)`: update in place when the key exists (JavaScript `Map`
keeps the original insertion position), otherwise append. -/
def mapSet (m : List (String × Provider)) (k : String) (v : Provider) :
    List (String × Provider) :=
  match m with
  | [] => [(k, v)]
  | e :: rest => if e.1 == k then (k, v) :: rest else e :: mapSet rest k v

/-- `providers.get(k)` (first — and by the `mapSet` invariant only — binding). -/
def mapGet (m : List (String × Provider)) (k : String) : Option Provider :=
  match m with
  | [] => none
  | e :: rest => if e.1 == k then some e.2 else mapGet rest k

/-- `providers.delete(k)`. -/
def mapDelete (m : List (String × Provider)) (k : String) :
    List (String × Provider) :=
  match m with
  | [] => []
  | e :: rest => if e.1 == k then rest else e :: mapDelete rest k

/-- The mutable state of a scoped `Agent` relevant to provider composition:
its insertion-ordered provider map and its settings (the action map and output
shape are modelled separately where needed). -/
structure Agent where
  providers : List (String × Provider)
  settings : AgentSettings
deriving DecidableEq, Repr

/-- `promptProvider` from `providers/prompt.ts` (scoped variant): the base
prompt content, guaranteed to be first via the `NEGATIVE_INFINITY` rank, scoped
to `actionKey` (default `'reply'`). -/
def promptProvider (prompt : String) (actionKey : String := "reply") : Provider :=
  { key := "prompt", type := PType.prompt, order := JNum.negInf,
    actionKey := some actionKey, exec := some prompt }

/-- `systemProvider`: base system message, always-first sentinel rank. -/
def systemProvider (system : String) (actionKey : String := "reply") : Provider :=
  { key := "system", type := PType.system, order := JNum.negInf,
    actionKey := some actionKey, exec := some system }

/-- `promptSuffixProvider`: suffix content, guaranteed last via the
`POSITIVE_INFINITY` rank. -/
def promptSuffixProvider (suffix : String) (actionKey : String := "reply") : Provider :=
  { key := "promptSuffix", type := PType.prompt, order := JNum.posInf,
    actionKey := some actionKey, exec := some suffix }

/-- `systemSuffixProvider`: system suffix, always-last sentinel rank. -/
def systemSuffixProvider (suffix : String) (actionKey : String := "reply") : Provider :=
  { key := "systemSuffix", type := PType.system, order := JNum.posInf,
    actionKey := some actionKey, exec := some suffix }

/-- The `Agent` constructor: installs the base `promptProvider` under its own
key.  The settings spread-merge `{...defaultSettings, ...settings}` is modelled
by passing the merged record. -/
def mkAgent (prompt : String) (settings : AgentSettings := defaultSettings) : Agent :=
  { providers := mapSet [] (promptProvider prompt).key (promptProvider prompt),
    settings := settings }

/-- `Agent.addProvider`: strict registration under `key ?? provider.key`;
throws when the key is already present. -/
def addProvider (ag : Agent) (provider : Provider) (key : Option String := none) :
    Except String Agent :=
  let providerKey := key.getD provider.key
  if mapHas ag.providers providerKey then
    Except.error ("Provider with key \x22" ++ providerKey ++ "\x22 already exists.")
  else
    Except.ok { ag with providers := mapSet ag.providers providerKey provider }

/-- `Agent.setProvider`: upsert under `key ?? provider.key`. -/
def setProvider (ag : Agent) (provider : Provider) (key : Option String := none) :
    Agent :=
  let providerKey := key.getD provider.key
  { ag with providers := mapSet ag.providers providerKey provider }

/-- `Agent.deleteProvider`. -/
def deleteProvider (ag : Agent) (key : String) : Agent :=
  { ag with providers := mapDelete ag.providers key }

/-- `Agent.formatProviderContent`: prefix a heading line when a title is set. -/
def formatProviderContent (content : String) (title : Option String) : String :=
  match title with
  | some t => "# " ++ t ++ "\n" ++ content
  | none => content

/-- Modelled from the spec: the `joinWithNewlines` utility's source file
(`src/utils/string.ts`) is absent from the sources (only its test file is
present).  Spec section 4.1 step 6: "Join all formatted, non-empty results with
a blank line (double newline) as separator; return the joined string (empty
string if nothing survived)"; its test shows `undefined` entries are dropped
and survivors are joined with `"\n\n"`.  `joinStrs` is the separator fold,
`joinWithNewlines` the full utility. -/
def joinStrs : List String → String
  | [] => ""
  | [s] => s
  | s :: rest => s ++ "\n\n" ++ joinStrs rest

def joinWithNewlines (parts : List (Option String)) : String :=
  joinStrs ((parts.filterMap id).filter (fun s => s ≠ ""))

/-- The selection step of `Agent.executeProviders`: providers of the requested
role whose `actionKey` is the requested one or absent. -/
def filterProviders (ag : Agent) (ty : PType) (actionKey : String) : List Provider :=
  (ag.providers.map Prod.snd).filter
    (fun provider => provider.type == ty &&
      (provider.actionKey == some actionKey || provider.actionKey == none))

/-- The comparator preorder: `a` may come no later than `b`. -/
def provLE (a b : Provider) : Prop := ordCmp a.order b.order ≠ Ordering.gt

/-- Strict comparator order. -/
def provLT (a b : Provider) : Prop := ordCmp a.order b.order = Ordering.lt

instance : DecidableRel provLE := fun a b =>
  inferInstanceAs (Decidable (ordCmp a.order b.order ≠ Ordering.gt))

instance : DecidableRel provLT := fun a b =>
  inferInstanceAs (Decidable (ordCmp a.order b.order = Ordering.lt))

/-- `filteredProviders.sort((a, b) => a.order - b.order)`: the ECMAScript sort
is stable and sorted w.r.t. the comparator; `List.insertionSort` computes that
(unique) stable sorted permutation. -/
def sortProviders (l : List Provider) : List Provider :=
  List.insertionSort provLE l

/-- One provider's contribution inside `Agent.executeProviders`: run the
producer (a rejected promise is caught, logged, and contributes `undefined`)
and format the content by the provider's title. -/
def provRender (provider : Provider) : Option String :=
  provider.exec.map (fun content => formatProviderContent content provider.title)

/-- `Agent.executeProviders`: filter by role and scope, return `undefined`
when nothing matches, otherwise sort, run every producer, format survivors,
and join. -/
def executeProviders (ag : Agent) (ty : PType) (actionKey : String) : Option String :=
  if (filterProviders ag ty actionKey).isEmpty then none
  else
    some (joinWithNewlines
      (((sortProviders (filterProviders ag ty actionKey)).map provRender).filter
        Option.isSome))

/-- `Agent.prompt`: prompt-role render joined with the end-of-prompt marker. -/
def Agent.prompt (ag : Agent) (actionKey : String := "reply") : String :=
  joinWithNewlines [executeProviders ag PType.prompt actionKey,
    some ag.settings.endPromptString]

/-- `Agent.system`: system-role render, empty string when nothing matched. -/
def Agent.system (ag : Agent) (actionKey : String := "reply") : String :=
  (executeProviders ag PType.system actionKey).getD ""

/-! ### Properties of the order comparator -/

theorem ordCmp_eq_iff (a b : JNum) : ordCmp a b = Ordering.eq ↔ a = b := by
  cases a <;> cases b <;> simp [ordCmp] <;> omega

theorem ordCmp_gt_iff (a b : JNum) : ordCmp a b = Ordering.gt ↔ ordCmp b a = Ordering.lt := by
  cases a <;> cases b <;> simp [ordCmp] <;> omega

theorem ordCmp_le_trans {a b c : JNum} (h₁ : ordCmp a b ≠ Ordering.gt)
    (h₂ : ordCmp b c ≠ Ordering.gt) : ordCmp a c ≠ Ordering.gt := by
  cases a <;> cases b <;> cases c <;> simp_all [ordCmp] <;> omega

theorem ordCmp_total (a b : JNum) :
    ordCmp a b ≠ Ordering.gt ∨ ordCmp b a ≠ Ordering.gt := by
  cases a <;> cases b <;> simp [ordCmp] <;> omega

theorem ordCmp_lt_of_le_of_ne {a b : JNum} (h₁ : ordCmp a b ≠ Ordering.gt)
    (h₂ : a ≠ b) : ordCmp a b = Ordering.lt := by
  rcases ho : ordCmp a b with _ | _ | _
  · rfl
  · exact absurd ((ordCmp_eq_iff a b).mp ho) h₂
  · exact absurd ho h₁

theorem ordCmp_lt_le_trans {a b c : JNum} (h₁ : ordCmp a b = Ordering.lt)
    (h₂ : ordCmp b c ≠ Ordering.gt) : ordCmp a c = Ordering.lt := by
  cases a <;> cases b <;> cases c <;> simp_all [ordCmp] <;> omega

instance : IsTotal Provider provLE :=
  ⟨fun a b => ordCmp_total a.order b.order⟩

instance : IsTrans Provider provLE :=
  ⟨fun _ _ _ h₁ h₂ => ordCmp_le_trans h₁ h₂⟩

/-! ### Properties of the provider sort -/

theorem sortProviders_perm (l : List Provider) : (sortProviders l).Perm l :=
  List.perm_insertionSort provLE l

theorem sortProviders_sorted (l : List Provider) :
    (sortProviders l).Sorted provLE :=
  List.sorted_insertionSort provLE l

/-- Stability: an equal-rank pair keeps its relative (registration) order. -/
theorem sortProviders_stable {a b : Provider} {l : List Provider}
    (hab : ordCmp a.order b.order = Ordering.eq) (h : List.Sublist [a, b] l) :
    List.Sublist [a, b] (sortProviders l) :=
  List.pair_sublist_insertionSort (by simp [provLE, hab]) h

/-- With pairwise distinct ranks the sort is strictly ascending. -/
theorem sortProviders_strict {l : List Provider}
    (hd : l.Pairwise (fun a b => a.order ≠ b.order)) :
    (sortProviders l).Sorted provLT := by
  have hd' : (sortProviders l).Pairwise (fun a b => a.order ≠ b.order) :=
    (List.Perm.pairwise_iff (by intro x y h h2; exact h h2.symm)
      (sortProviders_perm l)).mpr hd
  have hs : (sortProviders l).Pairwise provLE := sortProviders_sorted l
  rw [List.pairwise_iff_forall_sublist] at hs hd'
  show (sortProviders l).Pairwise provLT
  rw [List.pairwise_iff_forall_sublist]
  intro a b hab
  exact ordCmp_lt_of_le_of_ne (hs hab) (hd' hab)

/-! ### Removing a failed producer does not disturb the others -/

theorem orderedInsert_middle (x p : Provider) :
    ∀ (a b : List Provider), (a ++ p :: b).Sorted provLE →
      ∃ a' b', List.orderedInsert provLE x (a ++ p :: b) = a' ++ p :: b' ∧
        List.orderedInsert provLE x (a ++ b) = a' ++ b'
  | [], b, hs => by
    by_cases hxp : provLE x p
    · refine ⟨[x], b, by simp [hxp], ?_⟩
      cases b with
      | nil => simp
      | cons y ys =>
        have hpy : provLE p y := List.rel_of_sorted_cons hs y (by simp)
        have hxy : provLE x y := ordCmp_le_trans hxp hpy
        simp [hxy]
    · exact ⟨[], List.orderedInsert provLE x b, by simp [hxp], by simp⟩
  | c :: a, b, hs => by
    by_cases hxc : provLE x c
    · exact ⟨x :: c :: a, b, by simp [hxc], by simp [hxc]⟩
    · obtain ⟨a', b', h1, h2⟩ := orderedInsert_middle x p a b hs.of_cons
      exact ⟨c :: a', b', by simp [hxc, h1], by simp [hxc, h2]⟩

theorem insertionSortSplit (p : Provider) :
    ∀ (l1 l2 : List Provider), ∃ a b,
      sortProviders (l1 ++ p :: l2) = a ++ p :: b ∧ sortProviders (l1 ++ l2) = a ++ b
  | [], l2 => by
    refine ⟨(sortProviders l2).takeWhile (fun b => ¬provLE p b),
      (sortProviders l2).dropWhile (fun b => ¬provLE p b), ?_, ?_⟩
    · show List.orderedInsert provLE p (sortProviders l2) = _
      exact List.orderedInsert_eq_take_drop provLE p (sortProviders l2)
    · exact (List.takeWhile_append_dropWhile (fun b => ¬provLE p b)
        (sortProviders l2)).symm
  | x :: l1, l2 => by
    obtain ⟨a, b, h1, h2⟩ := insertionSortSplit p l1 l2
    have hs : (a ++ p :: b).Sorted provLE := h1 ▸ sortProviders_sorted (l1 ++ p :: l2)
    obtain ⟨a', b', g1, g2⟩ := orderedInsert_middle x p a b hs
    refine ⟨a', b', ?_, ?_⟩
    · show List.orderedInsert provLE x (sortProviders (l1 ++ p :: l2)) = _
      rw [h1]; exact g1
    · show List.orderedInsert provLE x (sortProviders (l1 ++ l2)) = _
      rw [h2]; exact g2

theorem removeFailing_filter {p : Provider} (hfail : provRender p = none)
    (F1 F2 : List Provider) :
    ((sortProviders (F1 ++ p :: F2)).map provRender).filter Option.isSome =
      ((sortProviders (F1 ++ F2)).map provRender).filter Option.isSome := by
  obtain ⟨a, b, h1, h2⟩ := insertionSortSplit p F1 F2
  rw [h1, h2]
  simp [List.filter_append, hfail]

/-! ### Join lemmas -/

theorem joinStrs_infix {x : String} : ∀ {l : List String}, x ∈ l →
    ∃ pre post, joinStrs l = pre ++ x ++ post := by
  intro l
  induction l with
  | nil => simp
  | cons s rest ih =>
    intro hx
    cases rest with
    | nil =>
      rw [List.mem_singleton] at hx
      subst hx
      exact ⟨"", "", by simp [joinStrs]⟩
    | cons t ts =>
      rcases List.mem_cons.mp hx with h | h
      · subst h
        exact ⟨"", "\n\n" ++ joinStrs (t :: ts), by simp [joinStrs, String.append_assoc]⟩
      · obtain ⟨pre, post, hp⟩ := ih h
        refine ⟨s ++ "\n\n" ++ pre, post, ?_⟩
        simp [joinStrs, hp, String.append_assoc]

theorem joinWithNewlines_infix {o : String} {parts : List (Option String)}
    (h : some o ∈ parts) : ∃ pre post, joinWithNewlines parts = pre ++ o ++ post := by
  by_cases ho : o = ""
  · subst ho
    exact ⟨"", joinWithNewlines parts, by simp⟩
  · apply joinStrs_infix
    rw [List.mem_filter]
    refine ⟨?_, by simpa using ho⟩
    rw [List.mem_filterMap]
    exact ⟨some o, h, rfl⟩

/-! ### The JSON value model and `JSON.parse`

`processOutput` pipes the extracted candidate text through the platform's
`JSON.parse` and branches on the runtime type of each parsed field.  JSON
values are embedded as `JsValue`; numbers are exact rationals (a `JSON.parse`
result is never `NaN`/`Infinity`, and the numeric literals exercised here are
exactly representable). -/

inductive JsValue where
  | str (s : String) : JsValue
  | num (v : Rat) : JsValue
  | bool (b : Bool) : JsValue
  | null : JsValue
  | arr (elems : List JsValue) : JsValue
  | obj (fields : List (String × JsValue)) : JsValue

def isJsonWs : Char → Bool
  | ' ' => true
  | '\t' => true
  | '\n' => true
  | '\x0d' => true
  | _ => false

def skipWs (cs : List Char) : List Char := cs.dropWhile isJsonWs

def isDigitC (c : Char) : Bool := '0' ≤ c && c ≤ '9'

def digitVal (c : Char) : Nat := c.toNat - '0'.toNat

def hexVal (c : Char) : Option Nat :=
  let n := c.toNat
  if isDigitC c then some (digitVal c)
  else if 97 ≤ n && n ≤ 102 then some (n - 87)
  else if 65 ≤ n && n ≤ 70 then some (n - 55)
  else none

/-- JSON string body (after the opening quote): literal characters and the
JSON escapes; control characters are invalid. -/
def jstrLoop : List Char → List Char → Option (String × List Char)
  | _, [] => none
  | acc, c :: cs =>
    if c == '"' then some (String.mk acc.reverse, cs)
    else if c == '\\' then
      match cs with
      | [] => none
      | e :: cs2 =>
        if e == '"' then jstrLoop ('"' :: acc) cs2
        else if e == '\\' then jstrLoop ('\\' :: acc) cs2
        else if e == '/' then jstrLoop ('/' :: acc) cs2
        else if e == 'b' then jstrLoop ('\x08' :: acc) cs2
        else if e == 'f' then jstrLoop ('\x0c' :: acc) cs2
        else if e == 'n' then jstrLoop ('\n' :: acc) cs2
        else if e == 'r' then jstrLoop ('\x0d' :: acc) cs2
        else if e == 't' then jstrLoop ('\t' :: acc) cs2
        else if e == 'u' then
          match cs2 with
          | h1 :: h2 :: h3 :: h4 :: cs3 =>
            match hexVal h1, hexVal h2, hexVal h3, hexVal h4 with
            | some a, some b, some c', some d =>
              jstrLoop (Char.ofNat (((a * 16 + b) * 16 + c') * 16 + d) :: acc) cs3
            | _, _, _, _ => none
          | _ => none
        else none
    else if c.toNat < 32 then none
    else jstrLoop (c :: acc) cs

def takeDigits (cs : List Char) : List Char × List Char :=
  (cs.takeWhile isDigitC, cs.dropWhile isDigitC)

def digitsToNat (ds : List Char) : Nat :=
  ds.foldl (fun n c => n * 10 + digitVal c) 0

/-- Optional exponent part `e`/`E` with optional sign. -/
def parseExp (cs : List Char) : Option (Int × List Char) :=
  match cs with
  | c :: cs1 =>
    if c == 'e' || c == 'E' then
      let sr : Int × List Char :=
        match cs1 with
        | '+' :: r => (1, r)
        | '-' :: r => (-1, r)
        | r => (1, r)
      let ds := takeDigits sr.2
      if ds.1.isEmpty then none else some (sr.1 * (digitsToNat ds.1 : Int), ds.2)
    else some (0, c :: cs1)
  | [] => some (0, [])

/-- Build the rational value `sign * digits.fracDigits * 10 ^ exp`. -/
def decValue (sgn : Int) (ids fds : List Char) (ex : Int) : Rat :=
  let mant : Int := sgn * (digitsToNat (ids ++ fds) : Int)
  let e10 : Int := ex - (fds.length : Int)
  if 0 ≤ e10 then ((mant * 10 ^ e10.toNat : Int) : Rat)
  else mkRat mant (10 ^ (-e10).toNat)

/-- JSON number grammar: `-? (0 | [1-9][0-9]*) (. [0-9]+)? ([eE][+-]?[0-9]+)?`. -/
def parseJNumber (cs : List Char) : Option (Rat × List Char) :=
  let sg : Int × List Char := match cs with | '-' :: r => (-1, r) | r => (1, r)
  let ip := takeDigits sg.2
  if ip.1.isEmpty then none
  else if ip.1.length > 1 && ip.1.head? == some '0' then none
  else
    let fracStep : Option (List Char × List Char) :=
      match ip.2 with
      | '.' :: r =>
        let fp := takeDigits r
        if fp.1.isEmpty then none else some (fp.1, fp.2)
      | r => some ([], r)
    match fracStep with
    | none => none
    | some (fds, cs3) =>
      match parseExp cs3 with
      | none => none
      | some (ex, cs4) => some (decValue sg.1 ip.1 fds ex, cs4)

/-- JavaScript object construction: a later duplicate key overwrites the
earlier binding in place. -/
def objSet : List (String × JsValue) → String → JsValue → List (String × JsValue)
  | [], k, v => [(k, v)]
  | e :: rest, k, v => if e.1 == k then (k, v) :: rest else e :: objSet rest k v

mutual

def parseValue : Nat → List Char → Option (JsValue × List Char)
  | 0, _ => none
  | fuel + 1, cs =>
    match skipWs cs with
    | [] => none
    | c :: rest =>
      if c == '{' then parseObjStart fuel rest
      else if c == '[' then parseArrStart fuel rest
      else if c == '"' then
        match jstrLoop [] rest with
        | some (s, r) => some (JsValue.str s, r)
        | none => none
      else if c == 't' then
        if rest.take 3 == ['r', 'u', 'e'] then some (JsValue.bool true, rest.drop 3)
        else none
      else if c == 'f' then
        if rest.take 4 == ['a', 'l', 's', 'e'] then some (JsValue.bool false, rest.drop 4)
        else none
      else if c == 'n' then
        if rest.take 3 == ['u', 'l', 'l'] then some (JsValue.null, rest.drop 3)
        else none
      else if c == '-' || isDigitC c then
        match parseJNumber (c :: rest) with
        | some (q, r) => some (JsValue.num q, r)
        | none => none
      else none

def parseObjStart : Nat → List Char → Option (JsValue × List Char)
  | 0, _ => none
  | fuel + 1, cs =>
    match skipWs cs with
    | '}' :: rest => some (JsValue.obj [], rest)
    | cs1 => parseMembers fuel [] cs1

def parseMembers : Nat → List (String × JsValue) → List Char →
    Option (JsValue × List Char)
  | 0, _, _ => none
  | fuel + 1, fields, cs =>
    match skipWs cs with
    | '"' :: r1 =>
      match jstrLoop [] r1 with
      | none => none
      | some (k, r2) =>
        match skipWs r2 with
        | ':' :: r3 =>
          match parseValue fuel r3 with
          | none => none
          | some (v, r4) =>
            match skipWs r4 with
            | ',' :: r5 => parseMembers fuel (objSet fields k v) r5
            | '}' :: r5 => some (JsValue.obj (objSet fields k v), r5)
            | _ => none
        | _ => none
    | _ => none

def parseArrStart : Nat → List Char → Option (JsValue × List Char)
  | 0, _ => none
  | fuel + 1, cs =>
    match skipWs cs with
    | ']' :: rest => some (JsValue.arr [], rest)
    | cs1 => parseElems fuel [] cs1

def parseElems : Nat → List JsValue → List Char → Option (JsValue × List Char)
  | 0, _, _ => none
  | fuel + 1, elems, cs =>
    match parseValue fuel cs with
    | none => none
    | some (v, r1) =>
      match skipWs r1 with
      | ',' :: r2 => parseElems fuel (elems ++ [v]) r2
      | ']' :: r2 => some (JsValue.arr (elems ++ [v]), r2)
      | _ => none

end

/-- `JSON.parse`: parse one value and require only whitespace to remain. -/
def jsonParse (s : String) : Option JsValue :=
  match parseValue (8 * (s.data.length + 1)) s.data with
  | some (v, rest) => if (skipWs rest).isEmpty then some v else none
  | none => none

/-! ### Runtime type inspection and conversions used by the coercion switch -/

/-- `typeof` on a parsed JSON value (`typeof null` is `"object"`). -/
def jsTypeof : JsValue → String
  | JsValue.str _ => "string"
  | JsValue.num _ => "number"
  | JsValue.bool _ => "boolean"
  | JsValue.null => "object"
  | JsValue.arr _ => "object"
  | JsValue.obj _ => "object"

/-- Decimal rendering of a number.  The values reaching `String(value)` in the
sources that matter here are integral; non-integral formatting is approximated
(the exact ECMAScript shortest-roundtrip algorithm is out of scope and no
claim depends on it). -/
def ratToJsString (q : Rat) : String :=
  if q.den == 1 then toString q.num else toString q

mutual

/-- `String(value)` as applied by the `'string'` branch of the coercion
switch: numbers and booleans take their textual form, `null` prints `"null"`,
arrays join their elements with commas (`null` elements print empty), plain
objects print `"[object Object]"`. -/
def jsToString : JsValue → String
  | JsValue.str s => s
  | JsValue.num q => ratToJsString q
  | JsValue.bool b => if b then "true" else "false"
  | JsValue.null => "null"
  | JsValue.arr l => String.intercalate "," (arrParts l)
  | JsValue.obj _ => "[object Object]"

def arrParts : List JsValue → List String
  | [] => []
  | JsValue.null :: rest => "" :: arrParts rest
  | v :: rest => jsToString v :: arrParts rest

end

/-- ECMAScript whitespace trimmed by `String.prototype.trim` and `ToNumber`
(the common subset; exotic Unicode space characters are not modelled and never
arise in the sources or claims). -/
def isEcmaWs : Char → Bool
  | ' ' => true
  | '\t' => true
  | '\n' => true
  | '\x0d' => true
  | '\x0b' => true
  | '\x0c' => true
  | _ => false

def ecmaTrim (cs : List Char) : List Char :=
  ((cs.dropWhile isEcmaWs).reverse.dropWhile isEcmaWs).reverse

/-- `String.prototype.trim`. -/
def jsTrim (s : String) : String := String.mk (ecmaTrim s.data)

/-- An ECMAScript `StrUnsignedDecimalLiteral` (with optional sign): the
decimal fragment of `ToNumber` for strings.  `Number(value)` on the strings
the sources exercise; hexadecimal/binary literals and `"Infinity"` are not
modelled (no claim involves them). -/
def strDecimalToRat (cs : List Char) : Option Rat :=
  let sg : Int × List Char :=
    match cs with
    | '+' :: r => (1, r)
    | '-' :: r => (-1, r)
    | r => (1, r)
  let ip := takeDigits sg.2
  let fracStep : Option (List Char × List Char) :=
    match ip.2 with
    | '.' :: r =>
      let fp := takeDigits r
      some (fp.1, fp.2)
    | r => some ([], r)
  match fracStep with
  | none => none
  | some (fds, cs3) =>
    if ip.1.isEmpty && fds.isEmpty then none
    else
      match parseExp cs3 with
      | none => none
      | some (ex, cs4) =>
        if cs4.isEmpty then some (decValue sg.1 ip.1 fds ex) else none

/-- `Number(value)` for a string argument: trim ECMAScript whitespace; the
empty remainder converts to `0`; otherwise parse a signed decimal literal.
`none` models `NaN`. -/
def jsStringToNumber (s : String) : Option Rat :=
  let t := ecmaTrim s.data
  if t.isEmpty then some 0 else strDecimalToRat t

/-! ### The shape descriptor and the coercion switch of `processOutput` -/

/-- One field of a shape declaration (`{type, description}`); `type` is the
raw string from the source so that the `default` switch branch is reachable. -/
structure FieldDescriptor where
  type : String
  description : String
deriving DecidableEq, Repr

/-- A shape declaration: field name to descriptor, in declaration order. -/
abbrev ShapeDescriptor := List (String × FieldDescriptor)

/-- Property access `parsedData[key]` on the parsed JSON value (on a
non-object the relevant keys are absent). -/
def objGet : List (String × JsValue) → String → Option JsValue
  | [], _ => none
  | e :: rest, k => if e.1 == k then some e.2 else objGet rest k

def jsGet (v : JsValue) (k : String) : Option JsValue :=
  match v with
  | JsValue.obj fields => objGet fields k
  | _ => none

/-- The `switch (descriptor.type)` of `processOutput` for one declared field:
validation and casting with the exact error messages of the source. -/
def coerceField (key : String) (descriptorType : String) (value : JsValue) :
    Except String JsValue :=
  if descriptorType == "string" then
    match value with
    | JsValue.str _ => Except.ok value
    | _ => Except.ok (JsValue.str (jsToString value))
  else if descriptorType == "number" then
    match value with
    | JsValue.num q => Except.ok (JsValue.num q)
    | JsValue.str s =>
      match jsStringToNumber s with
      | some num => Except.ok (JsValue.num num)
      | none => Except.error ("Type mismatch for key \x22" ++ key ++
          "\x22: expected number, got string \x22" ++ s ++ "\x22 (could not convert)")
    | _ => Except.error ("Type mismatch for key \x22" ++ key ++
        "\x22: expected number, got " ++ jsTypeof value)
  else if descriptorType == "boolean" then
    match value with
    | JsValue.bool _ => Except.ok value
    | JsValue.str s =>
      let lowerValue := s.toLower
      if lowerValue == "true" then Except.ok (JsValue.bool true)
      else if lowerValue == "false" then Except.ok (JsValue.bool false)
      else Except.error ("Type mismatch for key \x22" ++ key ++
        "\x22: expected boolean, got string \x22" ++ s ++ "\x22 (could not convert)")
    | _ => Except.error ("Type mismatch for key \x22" ++ key ++
        "\x22: expected boolean, got " ++ jsTypeof value)
  else if descriptorType == "object" then
    match value with
    | JsValue.obj _ => Except.ok value
    | _ => Except.error ("Type mismatch for key \x22" ++ key ++
        "\x22: expected object, got " ++ jsTypeof value)
  else if descriptorType == "array" then
    match value with
    | JsValue.arr _ => Except.ok value
    | _ => Except.error ("Type mismatch for key \x22" ++ key ++
        "\x22: expected array, got " ++ jsTypeof value)
  else
    Except.error ("Unknown type \x22" ++ descriptorType ++
      "\x22 specified in shapeDescriptor for key \x22" ++ key ++ "\x22.")

/-- The field loop of `processOutput`: for each declared field in declaration
order, absent or `null` values fail as missing, otherwise the coercion switch
runs; the result holds exactly the declared fields (extra parsed keys are
ignored). -/
def coerceFields : ShapeDescriptor → JsValue → Except String (List (String × JsValue))
  | [], _ => Except.ok []
  | (key, descriptor) :: rest, parsedData =>
    match jsGet parsedData key with
    | none => Except.error ("Missing key \x22" ++ key ++ "\x22 in parsed JSON data.")
    | some JsValue.null => Except.error ("Missing key \x22" ++ key ++ "\x22 in parsed JSON data.")
    | some value =>
      match coerceField key descriptor.type value with
      | Except.error e => Except.error e
      | Except.ok v =>
        match coerceFields rest parsedData with
        | Except.error e => Except.error e
        | Except.ok vs => Except.ok ((key, v) :: vs)

/-! ### Fenced-block extraction

The source searches the trimmed input with the regular expression
`/(three backticks)json\n?({[^]*?})\n?(three backticks)/i`: a case-insensitive
fence tag, at most one optional newline on each side of the group, and a lazy
group that starts at `{` and ends at the first `}` whose continuation matches
the closing `\n?` + fence.  The embedding reproduces the backtracking
behaviour of that pattern: leftmost match start, greedy `\n?` (whose fallback
can never succeed, since the fallback position then starts with a newline),
and shortest successful group. -/

def startsL : List Char → List Char → Bool
  | _, [] => true
  | [], _ :: _ => false
  | c :: cs, d :: ds => c == d && startsL cs ds

/-- After the candidate closing `}`: optional newline then the closing fence. -/
def closeMatch (rest : List Char) : Bool :=
  match rest with
  | '\n' :: r => startsL r ['`', '`', '`']
  | r => startsL r ['`', '`', '`']

/-- The lazy group: find the first `}` whose continuation closes the fence;
`seen` holds the group content so far, reversed. -/
def groupScan : List Char → List Char → Option (List Char)
  | _, [] => none
  | seen, c :: cs =>
    if c == '}' && closeMatch cs then some ('{' :: (seen.reverse ++ ['}']))
    else groupScan (c :: seen) cs

/-- A whole-pattern match attempt starting exactly at `cs`. -/
def fenceAt (cs : List Char) : Option (List Char) :=
  match cs with
  | '`' :: '`' :: '`' :: j1 :: j2 :: j3 :: j4 :: rest =>
    if j1.toLower == 'j' && j2.toLower == 's' && j3.toLower == 'o' && j4.toLower == 'n' then
      let r : List Char := match rest with | '\n' :: r1 => r1 | r0 => r0
      match r with
      | '{' :: cs2 => groupScan [] cs2
      | _ => none
    else none
  | _ => none

/-- Leftmost match of the fence pattern anywhere in the input. -/
def scanFence : List Char → Option (List Char)
  | [] => none
  | c :: cs =>
    match fenceAt (c :: cs) with
    | some g => some g
    | none => scanFence cs

/-- The extraction step of `processOutput`: trim, use the fenced group when
the pattern matches, otherwise the trimmed whole string. -/
def extractCandidate (jsonString : String) : String :=
  let t := jsTrim jsonString
  match scanFence t.data with
  | some g => String.mk g
  | none => t

/-- `processOutput` (`processing/output.ts`): empty-shape and empty-input
guards, fenced-block extraction, `JSON.parse` (its engine-specific
`error.message` is modelled by the constant `"SyntaxError"`), and the
per-field validation loop. -/
def processOutput (shapeDescriptor : ShapeDescriptor) (jsonString : String) :
    Except String (List (String × JsValue)) :=
  if shapeDescriptor.isEmpty then
    Except.error "processOutput requires a non-empty shapeDescriptor."
  else if jsTrim jsonString == "" then
    Except.error "processOutput requires a non-empty jsonString."
  else
    let extractedJson := extractCandidate jsonString
    match jsonParse extractedJson with
    | none => Except.error ("Failed to parse JSON: SyntaxError" ++
        "\nOriginal String: " ++ jsonString ++ "\nExtracted JSON: " ++ extractedJson)
    | some parsedData => coerceFields shapeDescriptor parsedData

/-- The result of the default `reply` action: raw text or a coerced record. -/
inductive ReplyResult where
  | raw (text : String) : ReplyResult
  | parsed (fields : List (String × JsValue)) : ReplyResult

/-- `replyAction.execute` after the external generation call returned
`rawResponse`: without an output shape the raw text passes through; with one,
coercion is attempted and any coercion error is caught (logged) and the raw
text returned instead. -/
def replyActionResult (outputShape : Option ShapeDescriptor) (rawResponse : String) :
    ReplyResult :=
  match outputShape with
  | none => ReplyResult.raw rawResponse
  | some shape =>
    match processOutput shape rawResponse with
    | Except.ok v => ReplyResult.parsed v
    | Except.error _ => ReplyResult.raw rawResponse

/-- Discriminator for coercion outcomes (used to compare results without a
decidable equality on the nested `JsValue`). -/
def exOkB : Except String (List (String × JsValue)) → Bool
  | Except.ok _ => true
  | Except.error _ => false

/-! ### Helper lemmas on the provider map and the renders -/

theorem mapGet_mapSet (m : List (String × Provider)) (k : String) (v : Provider) :
    mapGet (mapSet m k v) k = some v := by
  induction m with
  | nil => simp [mapSet, mapGet]
  | cons e rest ih =>
    by_cases he : e.1 == k
    · simp [mapSet, mapGet, he]
    · simp only [mapSet, he]
      rw [if_neg (by simp_all)]
      simp only [mapGet]
      rw [if_neg (by simp_all)]
      exact ih

theorem mapSet_mapSet (m : List (String × Provider)) (k : String) (v1 v2 : Provider) :
    mapSet (mapSet m k v1) k v2 = mapSet m k v2 := by
  induction m with
  | nil => simp [mapSet]
  | cons e rest ih =>
    by_cases he : e.1 == k
    · simp [mapSet, he]
    · simp only [mapSet, he, if_neg, if_false]
      rw [if_neg (by simp_all), if_neg (by simp_all)]
      simp [ih]

theorem joinWN_pair_empty (e : String) :
    joinWithNewlines [some "", some e] = joinWithNewlines [none, some e] := by
  by_cases he : e = "" <;> simp [joinWithNewlines, joinStrs, he]

/-- With no matching provider the prompt render is exactly the end marker. -/
theorem prompt_of_no_providers {ag : Agent} {ak : String}
    (h : filterProviders ag PType.prompt ak = []) :
    Agent.prompt ag ak = ag.settings.endPromptString := by
  have hexec : executeProviders ag PType.prompt ak = none := by
    simp [executeProviders, h]
  rw [Agent.prompt, hexec]
  by_cases he : ag.settings.endPromptString = "" <;>
    simp [joinWithNewlines, joinStrs, he]

/-- With no matching provider the system render is exactly the empty string. -/
theorem system_of_no_providers {ag : Agent} {ak : String}
    (h : filterProviders ag PType.system ak = []) :
    Agent.system ag ak = "" := by
  have hexec : executeProviders ag PType.system ak = none := by
    simp [executeProviders, h]
  rw [Agent.system, hexec]
  rfl

/-- The filter predicate of `executeProviders`. -/
def matchesRole (ty : PType) (ak : String) (q : Provider) : Bool :=
  q.type == ty && (q.actionKey == some ak || q.actionKey == none)

theorem filterProviders_eq (ag : Agent) (ty : PType) (ak : String) :
    filterProviders ag ty ak = (ag.providers.map Prod.snd).filter (matchesRole ty ak) := rfl

theorem filterProviders_decomp (m1 m2 : List (String × Provider)) (k : String)
    (p : Provider) (st : AgentSettings) (ty : PType) (ak : String) :
    filterProviders ⟨m1 ++ (k, p) :: m2, st⟩ ty ak =
      filterProviders ⟨m1, st⟩ ty ak ++
        (if matchesRole ty ak p then
          p :: filterProviders ⟨m2, st⟩ ty ak
         else filterProviders ⟨m2, st⟩ ty ak) := by
  simp only [filterProviders_eq, List.map_append, List.map_cons, List.filter_append,
    List.filter_cons]

theorem filterProviders_append (m1 m2 : List (String × Provider))
    (st : AgentSettings) (ty : PType) (ak : String) :
    filterProviders ⟨m1 ++ m2, st⟩ ty ak =
      filterProviders ⟨m1, st⟩ ty ak ++ filterProviders ⟨m2, st⟩ ty ak := by
  simp only [filterProviders_eq, List.map_append, List.filter_append]

/-- Dropping a provider whose producer fails from the registry either leaves
the role render unchanged, or turns a render of sole-failed `""` into the
no-content `undefined`. -/
theorem executeProviders_erase (m1 m2 : List (String × Provider)) (k : String)
    (p : Provider) (st : AgentSettings) (ty : PType) (ak : String)
    (hfail : p.exec = none) :
    executeProviders ⟨m1 ++ (k, p) :: m2, st⟩ ty ak =
        executeProviders ⟨m1 ++ m2, st⟩ ty ak ∨
      (executeProviders ⟨m1 ++ (k, p) :: m2, st⟩ ty ak = some "" ∧
        executeProviders ⟨m1 ++ m2, st⟩ ty ak = none) := by
  have hrender : provRender p = none := by simp [provRender, hfail]
  have hdec := filterProviders_decomp m1 m2 k p st ty ak
  have hdec' := filterProviders_append m1 m2 st ty ak
  by_cases hp : matchesRole ty ak p
  · rw [if_pos hp] at hdec
    by_cases he : filterProviders ⟨m1, st⟩ ty ak ++ filterProviders ⟨m2, st⟩ ty ak = []
    · right
      rcases List.append_eq_nil.mp he with ⟨he1, he2⟩
      constructor
      · rw [executeProviders, hdec, he1, he2]
        simp [sortProviders, hrender, joinWithNewlines, joinStrs]
      · rw [executeProviders, hdec', he1, he2]
        simp
    · left
      rw [executeProviders, executeProviders, hdec, hdec']
      rw [if_neg (by simp), if_neg (by simp [he])]
      rw [removeFailing_filter hrender]
  · rw [if_neg hp] at hdec
    left
    rw [executeProviders, executeProviders, hdec, hdec']

/-! ## Claim theorems -/

/-- C7: when zero prompt providers match the requested role and scope the
rendered prompt equals exactly the configured end-of-prompt marker string, and
when zero system providers match the rendered system text equals exactly the
empty string. -/
theorem c7_empty_renders (ag : Agent) (ak : String) :
    (filterProviders ag PType.prompt ak = [] →
      Agent.prompt ag ak = ag.settings.endPromptString) ∧
    (filterProviders ag PType.system ak = [] → Agent.system ag ak = "") :=
  ⟨fun h => prompt_of_no_providers h, fun h => system_of_no_providers h⟩

/-- C7 witness: a freshly constructed agent has no provider matching the
`"other"` scope and no system provider at all. -/
theorem c7_empty_renders_witness :
    Agent.prompt (mkAgent "hi") "other" = "# OUTPUT" ∧
    Agent.system (mkAgent "hi") "reply" = "" :=
  ⟨(c7_empty_renders (mkAgent "hi") "other").1 (by decide),
   (c7_empty_renders (mkAgent "hi") "reply").2 (by decide)⟩

/-- C10: the base prompt provider installed by the scoped `Agent` constructor
carries scope key `'reply'` rather than being global, so rendering the prompt
for any other scope excludes the constructor's base prompt content (for a
fresh agent nothing matches, and the prompt is just the end marker). -/
theorem c10_base_prompt_scoped (p : String) (st : AgentSettings) (ak : String)
    (hak : ak ≠ "reply") :
    (promptProvider p).actionKey = some "reply" ∧
    filterProviders (mkAgent p st) PType.prompt ak = [] ∧
    Agent.prompt (mkAgent p st) ak = st.endPromptString := by
  have hfilter : filterProviders (mkAgent p st) PType.prompt ak = [] := by
    simp [filterProviders_eq, mkAgent, mapSet, promptProvider, matchesRole]
    exact fun h => hak h.symm
  exact ⟨rfl, hfilter, prompt_of_no_providers hfilter⟩

/-- C10 witness at the concrete scope `"evaluate"`. -/
theorem c10_base_prompt_scoped_witness :
    filterProviders (mkAgent "base" defaultSettings) PType.prompt "evaluate" = [] ∧
    Agent.prompt (mkAgent "base" defaultSettings) "evaluate" = "# OUTPUT" :=
  ⟨(c10_base_prompt_scoped "base" defaultSettings "evaluate" (by decide)).2.1,
   (c10_base_prompt_scoped "base" defaultSettings "evaluate" (by decide)).2.2⟩

/-- C6: strict registration (`addProvider`) under `key ?? provider.key` fails
with the duplicate-key error exactly when that key is present (the registry is
untouched, since the error is raised before any insertion); upsert
(`setProvider`) never fails, overwrites the entry under the same key in place,
and subsequent renders are those of the registry holding only the
replacement. -/
theorem c6_strict_vs_upsert (ag : Agent) (p p1 p2 : Provider) (key : Option String)
    (k : String) (ty : PType) (ak : String) :
    (mapHas ag.providers (key.getD p.key) = true →
      addProvider ag p key = Except.error
        ("Provider with key \x22" ++ key.getD p.key ++ "\x22 already exists.")) ∧
    (mapHas ag.providers (key.getD p.key) = false →
      addProvider ag p key = Except.ok
        { ag with providers := mapSet ag.providers (key.getD p.key) p }) ∧
    (mapGet (setProvider ag p key).providers (key.getD p.key) = some p) ∧
    (setProvider (setProvider ag p1 (some k)) p2 (some k) = setProvider ag p2 (some k)) ∧
    (executeProviders (setProvider (setProvider ag p1 (some k)) p2 (some k)) ty ak =
      executeProviders (setProvider ag p2 (some k)) ty ak) := by
  refine ⟨fun h => ?_, fun h => ?_, ?_, ?_, ?_⟩
  · simp [addProvider, h]
  · simp [addProvider, h]
  · exact mapGet_mapSet ag.providers (key.getD p.key) p
  · simp [setProvider, mapSet_mapSet]
  · rw [show setProvider (setProvider ag p1 (some k)) p2 (some k) =
      setProvider ag p2 (some k) by simp [setProvider, mapSet_mapSet]]

/-- C6 witness: registering a second provider under the occupied base key
`"prompt"` fails strictly; upserting twice keeps only the replacement. -/
theorem c6_strict_vs_upsert_witness :
    addProvider (mkAgent "base") (promptProvider "other") none =
      Except.error "Provider with key \x22prompt\x22 already exists." ∧
    executeProviders
        (setProvider (setProvider (mkAgent "base") (promptProvider "v1") (some "x"))
          (promptProvider "v2") (some "x")) PType.prompt "reply" =
      executeProviders (setProvider (mkAgent "base") (promptProvider "v2") (some "x"))
        PType.prompt "reply" :=
  ⟨(c6_strict_vs_upsert (mkAgent "base") (promptProvider "other")
      (promptProvider "v1") (promptProvider "v2") none "x" PType.prompt "reply").1
      (by decide),
   (c6_strict_vs_upsert (mkAgent "base") (promptProvider "other")
      (promptProvider "v1") (promptProvider "v2") none "x" PType.prompt "reply").2.2.2.2⟩

/-- C9: for a shape field of kind `number`, a parsed value that is the empty
string or a whitespace-only string coerces successfully to `0` (ECMAScript
string-to-number conversion maps a whitespace-only string to `0`, not `NaN`),
rather than failing with a type mismatch. -/
theorem c9_blank_string_number (k : String) (s : String)
    (hws : ecmaTrim s.data = []) :
    jsStringToNumber s = some 0 ∧
    coerceField k "number" (JsValue.str s) = Except.ok (JsValue.num 0) ∧
    processOutput [("count", ⟨"number", "a count"⟩)] "\x7b\x22count\x22:\x22 \x22\x7d" =
      Except.ok [("count", JsValue.num 0)] := by
  have hnum : jsStringToNumber s = some 0 := by
    simp [jsStringToNumber, hws]
  exact ⟨hnum, by simp [coerceField, hnum], by rfl⟩

/-- C9 witness at the empty string and a whitespace-only string. -/
theorem c9_blank_string_number_witness :
    coerceField "count" "number" (JsValue.str "") = Except.ok (JsValue.num 0) ∧
    coerceField "count" "number" (JsValue.str " \t\n") = Except.ok (JsValue.num 0) :=
  ⟨(c9_blank_string_number "count" "" (by rfl)).2.1,
   (c9_blank_string_number "count" " \t\n" (by rfl)).2.1⟩

/-- C8: the default reply action returns the raw generated text unchanged
when no output shape is set; with a shape set it attempts coercion, returns
the coerced record on success, and on a coercion error returns the raw text
instead of raising — while `processOutput` itself surfaces the error
(`Except.error`) directly to its caller. -/
theorem c8_reply_fallback (raw : String) :
    (replyActionResult none raw = ReplyResult.raw raw) ∧
    (∀ shape v, processOutput shape raw = Except.ok v →
      replyActionResult (some shape) raw = ReplyResult.parsed v) ∧
    (∀ shape e, processOutput shape raw = Except.error e →
      replyActionResult (some shape) raw = ReplyResult.raw raw) := by
  refine ⟨rfl, fun shape v h => ?_, fun shape e h => ?_⟩
  · simp [replyActionResult, h]
  · simp [replyActionResult, h]

/-- C8 witness: a non-JSON response falls back to the raw text, a well-formed
response coerces. -/
theorem c8_reply_fallback_witness :
    replyActionResult (some [("a", ⟨"number", "d"⟩)]) "no json here" =
      ReplyResult.raw "no json here" ∧
    replyActionResult (some [("a", ⟨"number", "d"⟩)]) "\x7b\x22a\x22:1\x7d" =
      ReplyResult.parsed [("a", JsValue.num 1)] :=
  ⟨(c8_reply_fallback "no json here").2.2 [("a", ⟨"number", "d"⟩)]
      ("Failed to parse JSON: SyntaxError" ++ "\nOriginal String: no json here" ++
        "\nExtracted JSON: no json here") (by rfl),
   (c8_reply_fallback "\x7b\x22a\x22:1\x7d").2.1 [("a", ⟨"number", "d"⟩)]
      [("a", JsValue.num 1)] (by rfl)⟩

/-- Substring test (used to state that an error message does or does not
contain a given fragment). -/
def subStrB : List Char → List Char → Bool
  | [], needle => startsL [] needle
  | c :: cs, needle => startsL (c :: cs) needle || subStrB cs needle

/-- C3 counterexample: for a `number` field holding the boolean `true`, the
thrown message is `"Type mismatch for key \"k\": expected number, got boolean"`
— it names the runtime kind but does not include the offending value `true`,
so the claim's "TypeMismatchError including the offending value ... when the
value is of any other runtime kind" fails at this input. -/
theorem c3_counterexample :
    processOutput [("k", ⟨"number", "d"⟩)] "\x7b\x22k\x22:true\x7d" =
      Except.error "Type mismatch for key \x22k\x22: expected number, got boolean" ∧
    subStrB ("Type mismatch for key \x22k\x22: expected number, got boolean").data
      "true".data = false :=
  ⟨by rfl, by rfl⟩

/-- C3 (amended): for a `number` field, a numeric value is returned as-is and
a convertible string is converted; a non-convertible string fails with a
`TypeMismatchError` that includes the offending value, while a value of any
other runtime kind fails with a `TypeMismatchError` that names the value's
runtime type instead of the value. -/
theorem c3_number_field_coercion (k : String) :
    (∀ q, coerceField k "number" (JsValue.num q) = Except.ok (JsValue.num q)) ∧
    (∀ s q, jsStringToNumber s = some q →
      coerceField k "number" (JsValue.str s) = Except.ok (JsValue.num q)) ∧
    (∀ s, jsStringToNumber s = none →
      coerceField k "number" (JsValue.str s) = Except.error
        ("Type mismatch for key \x22" ++ k ++ "\x22: expected number, got string \x22"
          ++ s ++ "\x22 (could not convert)") ∧
      ∃ pre post,
        ("Type mismatch for key \x22" ++ k ++ "\x22: expected number, got string \x22"
          ++ s ++ "\x22 (could not convert)") = pre ++ s ++ post) ∧
    (∀ b, coerceField k "number" (JsValue.bool b) = Except.error
      ("Type mismatch for key \x22" ++ k ++ "\x22: expected number, got boolean")) ∧
    (∀ l, coerceField k "number" (JsValue.arr l) = Except.error
      ("Type mismatch for key \x22" ++ k ++ "\x22: expected number, got object")) ∧
    (∀ fs, coerceField k "number" (JsValue.obj fs) = Except.error
      ("Type mismatch for key \x22" ++ k ++ "\x22: expected number, got object")) := by
  refine ⟨fun q => by simp [coerceField], fun s q h => by simp [coerceField, h],
    fun s h => ⟨by simp [coerceField, h], ?_⟩,
    fun b => by simp [coerceField, jsTypeof]; rw [String.append_assoc]; congr 1,
    fun l => by simp [coerceField, jsTypeof]; rw [String.append_assoc]; congr 1,
    fun fs => by simp [coerceField, jsTypeof]; rw [String.append_assoc]; congr 1⟩
  exact ⟨"Type mismatch for key \x22" ++ k ++ "\x22: expected number, got string \x22",
    "\x22 (could not convert)", rfl⟩

/-- C3 witness: a numeric value, the convertible string `"42"`, and the
non-convertible string `"abc"`. -/
theorem c3_number_field_coercion_witness :
    coerceField "k" "number" (JsValue.num 7) = Except.ok (JsValue.num 7) ∧
    coerceField "k" "number" (JsValue.str "42") = Except.ok (JsValue.num 42) ∧
    coerceField "k" "number" (JsValue.str "abc") = Except.error
      "Type mismatch for key \x22k\x22: expected number, got string \x22abc\x22 (could not convert)" :=
  ⟨(c3_number_field_coercion "k").1 7,
   (c3_number_field_coercion "k").2.1 "42" 42 (by rfl),
   ((c3_number_field_coercion "k").2.2.1 "abc" (by rfl)).1⟩

/-! ### Trim support for C2 -/

theorem mem_dropWhile {α : Type} {p : α → Bool} {x : α} (hx : p x = false) :
    ∀ {l : List α}, x ∈ l → x ∈ l.dropWhile p := by
  intro l
  induction l with
  | nil => simp
  | cons a t ih =>
    intro h
    rw [List.dropWhile_cons]
    by_cases hp : p a = true
    · rw [if_pos hp]
      apply ih
      rcases List.mem_cons.mp h with h | h
      · subst h; rw [hx] at hp; cases hp
      · exact h
    · rw [if_neg hp]
      exact h

theorem mem_ecmaTrim {c : Char} (hw : isEcmaWs c = false) {cs : List Char}
    (hc : c ∈ cs) : c ∈ ecmaTrim cs := by
  unfold ecmaTrim
  rw [List.mem_reverse]
  apply mem_dropWhile hw
  rw [List.mem_reverse]
  exact mem_dropWhile hw hc

theorem jsTrim_ne_empty {c : Char} {s : String} (hw : isEcmaWs c = false)
    (hc : c ∈ s.data) : jsTrim s ≠ "" := by
  intro h
  have hdata : ecmaTrim s.data = [] := congrArg String.data h
  exact absurd (hdata ▸ mem_ecmaTrim hw hc) (List.not_mem_nil c)

/-- C2 counterexample: the fence regular expression allows only a single
optional newline inside the fence, so a single extra space after the opening
newline already defeats extraction and the whole input fails to parse, while
the bare object text coerces; likewise a `}` inside the object text that is
immediately followed by an (optional newline and) closing fence truncates the
lazy group.  Either input refutes "optional surrounding whitespace/newlines
inside the fence ... identical to passing the bare text". -/
theorem c2_counterexample :
    exOkB (processOutput [("a", ⟨"number", "d"⟩)]
      "```json\n \x7b\x22a\x22:1\x7d\n```") = false ∧
    processOutput [("a", ⟨"number", "d"⟩)] "\x7b\x22a\x22:1\x7d" =
      Except.ok [("a", JsValue.num 1)] ∧
    processOutput [("a", ⟨"number", "d"⟩)] "```json\n \x7b\x22a\x22:1\x7d\n```" ≠
      processOutput [("a", ⟨"number", "d"⟩)] "\x7b\x22a\x22:1\x7d" ∧
    exOkB (processOutput [("b", ⟨"number", "d"⟩)]
      ("```json\n" ++ "\x7b\x22a\x22:\x22\x7d```\x22,\x22b\x22:2\x7d" ++ "\n```")) = false ∧
    processOutput [("b", ⟨"number", "d"⟩)] "\x7b\x22a\x22:\x22\x7d```\x22,\x22b\x22:2\x7d" =
      Except.ok [("b", JsValue.num 2)] := by
  refine ⟨by rfl, by rfl, ?_, by rfl, by rfl⟩
  intro h
  have hb := congrArg exOkB h
  rw [show exOkB (processOutput [("a", ⟨"number", "d"⟩)]
    "```json\n \x7b\x22a\x22:1\x7d\n```") = false from rfl] at hb
  rw [show exOkB (processOutput [("a", ⟨"number", "d"⟩)]
    "\x7b\x22a\x22:1\x7d") = true from rfl] at hb
  cases hb

/-- C2 (amended): coercing a ```json fenced input behaves identically to
coercing the bare JSON object text whenever the fence-extraction step recovers
exactly that bare text from the fenced input (which holds when the padding
inside the fence is at most one newline on each side and the object text
contains no premature `}`-plus-closing-fence position) and the bare text is
its own extraction candidate: when the extracted text parses as JSON the two
results are equal, and when it does not, both calls fail with a parse error
(whose diagnostics echo their different raw inputs by design). -/
theorem c2_fenced_extraction (shape : ShapeDescriptor) (t : String)
    (h1 : extractCandidate ("```json\n" ++ t ++ "\n```") = t)
    (h2 : extractCandidate t = t) :
    ((jsonParse t).isSome = true →
      processOutput shape ("```json\n" ++ t ++ "\n```") = processOutput shape t) ∧
    exOkB (processOutput shape ("```json\n" ++ t ++ "\n```")) =
      exOkB (processOutput shape t) := by
  have hbt : ('`' : Char) ∈ ("```json\n" ++ t ++ "\n```").data := by
    rw [String.data_append, String.data_append]
    exact List.mem_append.mpr (Or.inl (List.mem_append.mpr (Or.inl (by decide))))
  have hfne : jsTrim ("```json\n" ++ t ++ "\n```") ≠ "" :=
    jsTrim_ne_empty (by decide) hbt
  by_cases ht : jsTrim t = ""
  · exfalso
    have hcand : extractCandidate t = jsTrim t := by
      unfold extractCandidate
      rw [ht]
      rfl
    have ht0 : t = "" := by rw [← h2, hcand, ht]
    subst ht0
    exact absurd h1 (by decide)
  · by_cases hsh : shape.isEmpty
    · constructor
      · intro hp
        simp [processOutput, hsh]
      · simp [processOutput, hsh]
    · have e1 : (jsTrim ("```json\n" ++ t ++ "\n```") == "") = false :=
        beq_eq_false_iff_ne.mpr hfne
      have e2 : (jsTrim t == "") = false := beq_eq_false_iff_ne.mpr ht
      constructor
      · intro hp
        obtain ⟨d, hd⟩ := Option.isSome_iff_exists.mp hp
        simp only [processOutput, hsh, e1, e2, h1, h2, if_false, Bool.false_eq_true, hd]
      · simp only [processOutput, hsh, e1, e2, h1, h2, if_false, Bool.false_eq_true]
        cases hj : jsonParse t <;> simp [exOkB]

/-- C2 witness: the single-newline-padded fence around the object text
recovers it exactly, and the two coercions agree. -/
theorem c2_fenced_extraction_witness :
    processOutput [("a", ⟨"number", "d"⟩)] "```json\n\x7b\x22a\x22:1\x7d\n```" =
      processOutput [("a", ⟨"number", "d"⟩)] "\x7b\x22a\x22:1\x7d" :=
  (c2_fenced_extraction [("a", ⟨"number", "d"⟩)] "\x7b\x22a\x22:1\x7d"
    (by rfl) (by rfl)).1 (by rfl)

/-! ### C5: sentinel ranks -/

theorem ordCmp_gt_negInf {a : JNum} (h : a ≠ JNum.negInf) :
    ordCmp a JNum.negInf = Ordering.gt := by
  cases a <;> simp_all [ordCmp]

theorem ordCmp_posInf_gt {b : JNum} (h : b ≠ JNum.posInf) :
    ordCmp JNum.posInf b = Ordering.gt := by
  cases b <;> simp_all [ordCmp]

/-- Two always-first providers of the same role, registered `"A"` first. -/
def alwaysFirstA : Provider :=
  { key := "k1", type := PType.prompt, order := JNum.negInf,
    actionKey := some "reply", exec := some "A" }

def alwaysFirstB : Provider :=
  { key := "k2", type := PType.prompt, order := JNum.negInf,
    actionKey := some "reply", exec := some "B" }

def twoSentinelAgent : Agent :=
  { providers := [("k1", alwaysFirstA), ("k2", alwaysFirstB)],
    settings := defaultSettings }

/-- C5 counterexample: with two providers both at the always-first sentinel
rank, the later-registered one (`alwaysFirstB`) does **not** render before
every other provider of its role — the tie is broken by registration order,
so `"A"` renders first regardless of `B`'s sentinel rank.  This refutes
"renders before every other provider of its role regardless of when it was
registered" as universally stated. -/
theorem c5_counterexample :
    alwaysFirstB.order = JNum.negInf ∧
    sortProviders (filterProviders twoSentinelAgent PType.prompt "reply") =
      [alwaysFirstA, alwaysFirstB] ∧
    executeProviders twoSentinelAgent PType.prompt "reply" = some "A\n\nB" ∧
    ¬ (∃ i j : Fin (sortProviders (filterProviders twoSentinelAgent
          PType.prompt "reply")).length,
        i < j ∧
        (sortProviders (filterProviders twoSentinelAgent PType.prompt "reply")).get i =
          alwaysFirstB ∧
        (sortProviders (filterProviders twoSentinelAgent PType.prompt "reply")).get j =
          alwaysFirstA) := by
  refine ⟨rfl, by decide, by decide, ?_⟩
  decide

/-- C5 (amended): a provider at the always-first sentinel rank (the rank the
base `promptProvider` carries) renders before every provider of its role at
any other rank, and a provider at the always-last sentinel rank (the rank of
`promptSuffixProvider`) renders after every provider of its role at any other
rank; among several providers sharing a sentinel rank, registration order
decides.  Positionally: in the sorted render order, everything at or after a
non-always-first position is non-always-first, and everything at or after an
always-last position is always-last. -/
theorem c5_sentinel_ranks (ag : Agent) (ty : PType) (ak : String)
    (prompt0 suffix0 ak0 : String) :
    (promptProvider prompt0 ak0).order = JNum.negInf ∧
    (promptSuffixProvider suffix0 ak0).order = JNum.posInf ∧
    ∀ (i j : Fin (sortProviders (filterProviders ag ty ak)).length), i ≤ j →
      (((sortProviders (filterProviders ag ty ak)).get j).order = JNum.negInf →
        ((sortProviders (filterProviders ag ty ak)).get i).order = JNum.negInf) ∧
      (((sortProviders (filterProviders ag ty ak)).get i).order = JNum.posInf →
        ((sortProviders (filterProviders ag ty ak)).get j).order = JNum.posInf) := by
  refine ⟨rfl, rfl, fun i j hij => ?_⟩
  rcases eq_or_lt_of_le hij with heq | hlt
  · subst heq
    exact ⟨fun h => h, fun h => h⟩
  · have hle : provLE ((sortProviders (filterProviders ag ty ak)).get i)
        ((sortProviders (filterProviders ag ty ak)).get j) :=
      (sortProviders_sorted (filterProviders ag ty ak)).rel_get_of_lt hlt
    constructor
    · intro hj
      by_contra hi
      exact hle (hj ▸ ordCmp_gt_negInf hi)
    · intro hi
      by_contra hj
      exact hle (hi ▸ ordCmp_posInf_gt hj)

/-- C5 witness: in the two-sentinel agent the first sorted slot is at the
always-first rank. -/
theorem c5_sentinel_ranks_witness :
    ((sortProviders (filterProviders twoSentinelAgent PType.prompt "reply")).get
      ⟨0, by decide⟩).order = JNum.negInf :=
  ((c5_sentinel_ranks twoSentinelAgent PType.prompt "reply" "p" "s" "reply").2.2
    ⟨0, by decide⟩ ⟨1, by decide⟩ (by decide)).1 (by decide)

/-! ### C1: ascending stable render order -/

/-- C1: rendering a role sorts exactly the matching providers (a permutation
of them) ascending by rank — strictly ascending when the ranks are pairwise
distinct — with equal-rank providers keeping their registration order, and the
joined output is the formatted contents in that sorted order. -/
theorem c1_render_ascending (ag : Agent) (ty : PType) (ak : String) :
    (sortProviders (filterProviders ag ty ak)).Perm (filterProviders ag ty ak) ∧
    ((filterProviders ag ty ak).Pairwise (fun a b => a.order ≠ b.order) →
      (sortProviders (filterProviders ag ty ak)).Sorted provLT) ∧
    (∀ a b, ordCmp a.order b.order = Ordering.eq →
      List.Sublist [a, b] (filterProviders ag ty ak) →
      List.Sublist [a, b] (sortProviders (filterProviders ag ty ak))) ∧
    executeProviders ag ty ak =
      (if filterProviders ag ty ak = [] then none
       else some (joinWithNewlines
         (((sortProviders (filterProviders ag ty ak)).map provRender).filter
           Option.isSome))) := by
  refine ⟨sortProviders_perm _, fun hd => sortProviders_strict hd,
    fun a b hab h => sortProviders_stable hab h, ?_⟩
  by_cases h : filterProviders ag ty ak = []
  · simp [executeProviders, h]
  · rw [if_neg h, executeProviders, if_neg (by simp [List.isEmpty_iff, h])]

def rankedA : Provider :=
  { key := "r1", type := PType.prompt, order := JNum.fin 5, exec := some "five" }

def rankedB : Provider :=
  { key := "r2", type := PType.prompt, order := JNum.fin 3, exec := some "three" }

def rankedAgent : Agent :=
  { providers := [("r1", rankedA), ("r2", rankedB)], settings := defaultSettings }

def tieA : Provider :=
  { key := "t1", type := PType.prompt, order := JNum.fin 1, exec := some "first" }

def tieB : Provider :=
  { key := "t2", type := PType.prompt, order := JNum.fin 1, exec := some "second" }

def tieAgent : Agent :=
  { providers := [("t1", tieA), ("t2", tieB)], settings := defaultSettings }

/-- C1 witness: distinct ranks render strictly ascending (rank 3 before rank
5 even though rank 5 was registered first), and an equal-rank pair keeps its
registration order. -/
theorem c1_render_ascending_witness :
    (sortProviders (filterProviders rankedAgent PType.prompt "reply")).Sorted provLT ∧
    List.Sublist [tieA, tieB]
      (sortProviders (filterProviders tieAgent PType.prompt "reply")) ∧
    executeProviders rankedAgent PType.prompt "reply" = some "three\n\nfive" ∧
    executeProviders tieAgent PType.prompt "reply" = some "first\n\nsecond" :=
  ⟨(c1_render_ascending rankedAgent PType.prompt "reply").2.1 (by decide),
   (c1_render_ascending tieAgent PType.prompt "reply").2.2.1 tieA tieB (by decide)
     (by rw [show filterProviders tieAgent PType.prompt "reply" = [tieA, tieB]
         from by decide]),
   by decide, by decide⟩

/-! ### C4: independent failure isolation -/

/-- C4: during one render each producer failure is isolated — deleting a
failing provider from the registry changes neither the rendered prompt nor the
rendered system text (its contribution is dropped), every succeeding matching
provider's formatted contribution still appears inside the joined output, and
the render itself never fails (it is a total function producing the join). -/
theorem c4_failure_isolation (m1 m2 : List (String × Provider)) (k : String)
    (p : Provider) (st : AgentSettings) (hfail : p.exec = none) :
    (∀ ak, Agent.prompt ⟨m1 ++ (k, p) :: m2, st⟩ ak =
      Agent.prompt ⟨m1 ++ m2, st⟩ ak) ∧
    (∀ ak, Agent.system ⟨m1 ++ (k, p) :: m2, st⟩ ak =
      Agent.system ⟨m1 ++ m2, st⟩ ak) ∧
    (∀ ty ak q c, q ∈ filterProviders ⟨m1 ++ (k, p) :: m2, st⟩ ty ak →
      q.exec = some c →
      ∃ out pre post,
        executeProviders ⟨m1 ++ (k, p) :: m2, st⟩ ty ak = some out ∧
        out = pre ++ formatProviderContent c q.title ++ post) := by
  refine ⟨fun ak => ?_, fun ak => ?_, fun ty ak q c hq hc => ?_⟩
  · rcases executeProviders_erase m1 m2 k p st PType.prompt ak hfail with h | ⟨h1, h2⟩
    · simp only [Agent.prompt, h]
    · simp only [Agent.prompt, h1, h2]
      exact joinWN_pair_empty _
  · rcases executeProviders_erase m1 m2 k p st PType.system ak hfail with h | ⟨h1, h2⟩
    · simp only [Agent.system, h]
    · simp only [Agent.system, h1, h2]
      rfl
  · have hne : filterProviders ⟨m1 ++ (k, p) :: m2, st⟩ ty ak ≠ [] :=
      List.ne_nil_of_mem hq
    have hmem : q ∈ sortProviders (filterProviders ⟨m1 ++ (k, p) :: m2, st⟩ ty ak) :=
      ((sortProviders_perm _).mem_iff).mpr hq
    have hr : provRender q = some (formatProviderContent c q.title) := by
      simp [provRender, hc]
    have hparts : some (formatProviderContent c q.title) ∈
        ((sortProviders (filterProviders ⟨m1 ++ (k, p) :: m2, st⟩ ty ak)).map
          provRender).filter Option.isSome := by
      rw [List.mem_filter]
      exact ⟨hr ▸ List.mem_map_of_mem provRender hmem, rfl⟩
    obtain ⟨pre, post, hj⟩ := joinWithNewlines_infix hparts
    refine ⟨_, pre, post, ?_, hj⟩
    rw [executeProviders, if_neg (by simp [List.isEmpty_iff, hne])]

def failingP : Provider :=
  { key := "f", type := PType.prompt, order := JNum.fin 1, exec := none }

def okP : Provider :=
  { key := "ok", type := PType.prompt, order := JNum.fin 2, exec := some "good" }

/-- C4 witness: one failing plus one succeeding provider of the same role —
the prompt is the same as without the failing provider, and the succeeding
formatted content appears in the render. -/
theorem c4_failure_isolation_witness :
    Agent.prompt ⟨[("ok", okP), ("f", failingP)], defaultSettings⟩ "reply" =
      Agent.prompt ⟨[("ok", okP)], defaultSettings⟩ "reply" ∧
    (∃ out pre post,
      executeProviders ⟨[("ok", okP), ("f", failingP)], defaultSettings⟩
        PType.prompt "reply" = some out ∧
      out = pre ++ formatProviderContent "good" okP.title ++ post) :=
  ⟨(c4_failure_isolation [("ok", okP)] [] "f" failingP defaultSettings rfl).1 "reply",
   (c4_failure_isolation [("ok", okP)] [] "f" failingP defaultSettings rfl).2.2
     PType.prompt "reply" okP "good" (by decide) rfl⟩
